import Mathlib

/-!
Verification of the Exodus agent runtime (exodialabs/exodus).

A shallow embedding of the core of the repository:
* `exodus/core/models/memory.py` — `Message`, `MemoryManager`;
* `exodus/core/memory/local_json_memory.py` — `LocalJsonMemoryManager`
  (`add_memory` / `save_memory` / `load_memory`);
* `exodus/core/tools/tool_executor.py` — `ToolExecutor.execute`;
* `exodus/agent_engine.py` — `AgentEngine.run_loop`, handoff protocol;
* `exodus/cli/session.py` — `ChatSession.send_message_stream` (which, in
  this source, raises `TypeError` before its loop body can run: it applies
  `async for` to the plain coroutine `run_loop` returns);
* `exodus/server/exodus_executor.py` — `ExodusExecutor._process_message`
  together with the core plugin tools of `exodus/core/tools/plugin.py`.

Python dictionaries holding JSON-shaped data are embedded as association
lists over a flat JSON value type (the repository only ever reads flat
scalar fields out of them), `datetime` as a record of calendar fields with
`isoformat` / `fromisoformat` implemented over character lists, and the
asynchronous loop of `run_loop` as a fuel-indexed recursive function whose
fuel is the remaining iteration budget.  The LLM provider is an oracle:
a function from the built model context and the current iteration counter
to a response, mirroring the `LLMProviderResponse` interface
(`get_content` / `is_tool_call` / `get_tool_calls`).
-/

namespace Exodus

/-! ### JSON-shaped scalar values (flat `dict` payloads) -/

/-- A flat JSON scalar, the shape of the values the repository reads out of
parsed tool-argument dictionaries and writes into executor responses. -/
inductive JVal where
  | jnull : JVal
  | jbool : Bool → JVal
  | jint : Int → JVal
  | jstr : String → JVal
deriving DecidableEq

/-- Parsed tool-call arguments: a Python `dict` after `json.loads`. -/
abbrev Args := List (String × JVal)

/-- `d.get(key)` on a Python dict embedded as an association list. -/
def Args.get (args : Args) (key : String) : Option JVal :=
  match args with
  | [] => none
  | (k, v) :: rest => if k = key then some v else Args.get rest key

/-- Python `str()` applied to a flat JSON scalar (used when the code
interpolates a value into an f-string). -/
def pyStr : JVal → String
  | .jnull => "None"
  | .jbool true => "True"
  | .jbool false => "False"
  | .jint n => toString n
  | .jstr s => s

/-! ### Character-list string helpers

`str.startswith`, `str.replace` and the slices of `datetime.isoformat` /
`datetime.fromisoformat` are implemented over `List Char` so that every
definition reduces in the kernel. -/

/-- Python `s.startswith(p)`. -/
def pyStartsWith (p s : String) : Bool :=
  p.data.isPrefixOf s.data

/-- Python `s.replace(pat, "")`: remove every non-overlapping occurrence
of `pat`, scanning left to right.  Structural recursion on a fuel that the
caller sets to `s.length`: every recursive call consumes at least one
character of `s` (the pattern is non-empty), so the fuel never runs out on
the caller's inputs. -/
def stripAllAux (pat : List Char) : Nat → List Char → List Char
  | 0, rest => rest
  | _, [] => []
  | fuel + 1, c :: cs =>
    if pat.isPrefixOf (c :: cs) then
      stripAllAux pat fuel (List.drop (pat.length - 1) cs)
    else
      c :: stripAllAux pat fuel cs

/-- Python `s.replace(pat, "")` for a non-empty pattern. -/
def pyReplaceEmpty (s pat : String) : String :=
  String.mk (stripAllAux pat.data s.data.length s.data)

/-- Python `s.split(sep)` for a one-character separator. -/
def splitOnChar (sep : Char) : List Char → List (List Char)
  | [] => [[]]
  | c :: cs =>
    let r := splitOnChar sep cs
    if c = sep then [] :: r
    else
      match r with
      | h :: t => (c :: h) :: t
      | [] => [[c]]

/-- Numeric value of a decimal digit character, `none` otherwise. -/
def digitVal (c : Char) : Option Nat :=
  if '0' ≤ c ∧ c ≤ '9' then some (c.toNat - '0'.toNat) else none

/-- Python `int(s)` on a non-empty string of decimal digits. -/
def charsToNat : List Char → Option Nat
  | [] => none
  | cs => go cs 0
where
  go : List Char → Nat → Option Nat
    | [], acc => some acc
    | c :: cs, acc =>
      match digitVal c with
      | some d => go cs (acc * 10 + d)
      | none => none

/-- The decimal digit character for `d % 10`. -/
def digitChar10 (d : Nat) : Char :=
  Char.ofNat (48 + d % 10)

/-- Fixed-width zero-padded decimal rendering, as produced by the `%02d`,
`%04d` and `%06d` fields of CPython's `datetime.isoformat`. -/
def padDigits (width n : Nat) : List Char :=
  (List.range width).map (fun i => digitChar10 (n / 10 ^ (width - 1 - i)))

/-! ### `datetime` -/

/-- The fields of a Python `datetime` value (timezone-naive, as everywhere
in the repository: all timestamps come from `datetime.now()`). -/
structure PyDatetime where
  year : Nat
  month : Nat
  day : Nat
  hour : Nat
  minute : Nat
  second : Nat
  microsecond : Nat
deriving DecidableEq

/-- `datetime.isoformat()`: `YYYY-MM-DDTHH:MM:SS` plus `.ffffff` when the
microsecond field is non-zero. -/
def PyDatetime.isoformat (t : PyDatetime) : String :=
  String.mk
    (padDigits 4 t.year ++ ['-'] ++ padDigits 2 t.month ++ ['-'] ++ padDigits 2 t.day
      ++ ['T'] ++ padDigits 2 t.hour ++ [':'] ++ padDigits 2 t.minute ++ [':']
      ++ padDigits 2 t.second
      ++ (if t.microsecond = 0 then [] else ['.'] ++ padDigits 6 t.microsecond))

/-- `datetime.fromisoformat` on the strings this repository produces
(`isoformat` output).  Shape and digit errors yield `none`, matching the
`ValueError` of CPython; the calendar-range validation CPython also
performs is not modelled, since the only parsed inputs are `isoformat`
renderings of valid datetimes. -/
def PyDatetime.fromisoformat (s : String) : Option PyDatetime :=
  match splitOnChar 'T' s.data with
  | [d, tm] =>
    match splitOnChar '-' d with
    | [y, mo, da] =>
      match splitOnChar ':' tm with
      | [h, mi, rest] =>
        match splitOnChar '.' rest with
        | [sec] =>
          match charsToNat y, charsToNat mo, charsToNat da,
                charsToNat h, charsToNat mi, charsToNat sec with
          | some yv, some mov, some dav, some hv, some miv, some sv =>
            some ⟨yv, mov, dav, hv, miv, sv, 0⟩
          | _, _, _, _, _, _ => none
        | [sec, frac] =>
          if 1 ≤ frac.length ∧ frac.length ≤ 6 then
            match charsToNat y, charsToNat mo, charsToNat da,
                  charsToNat h, charsToNat mi, charsToNat sec, charsToNat frac with
            | some yv, some mov, some dav, some hv, some miv, some sv, some fv =>
              some ⟨yv, mov, dav, hv, miv, sv, fv * 10 ^ (6 - frac.length)⟩
            | _, _, _, _, _, _, _ => none
          else none
        | _ => none
      | _ => none
    | _ => none
  | _ => none

/-! ### Messages and the conversation context store

`exodus/core/models/memory.py`. -/

/-- A tool call as delivered by the provider response
(`tool_call.id`, `tool_call.function.name`,
`json.loads(tool_call.function.arguments)`; the arguments are embedded
already parsed). -/
structure ToolCall where
  id : String
  name : String
  args : Args
deriving DecidableEq

/-- The `Message` dataclass of `exodus/core/models/memory.py`.  `content`
is `Option String` because `LitellmProviderResponse.get_content` returns
`None` when the provider message carries no text. -/
structure Message where
  role : String
  content : Option String
  timestamp : PyDatetime
  tool_calls : Option (List ToolCall) := none
  tool_call_id : Option String := none
  name : Option String := none
  session_id : Option String := none
  agent_name : Option String := none
deriving DecidableEq

/-- The payload dict built by `Message.to_openai_format`. -/
structure OAIMsg where
  role : String
  content : Option String
  tool_calls : Option (List ToolCall) := none
  tool_call_id : Option String := none
  name : Option String := none
deriving DecidableEq

/-- `Message.to_openai_format`: role and content always; `tool_calls` when
present; `tool_call_id` / `name` only on tool-role messages. -/
def Message.toOpenaiFormat (m : Message) : OAIMsg :=
  { role := m.role
    content := m.content
    tool_calls := m.tool_calls
    tool_call_id := if m.role = "tool" then m.tool_call_id else none
    name := if m.role = "tool" then m.name else none }

/-- One entry of the JSON snapshot array written by
`LocalJsonMemoryManager.save_memory`: the dict built by `Message.to_dict`.
The timestamp is serialized text (`isoformat`); `session_id` has no key in
the dict.  Serialized tool calls are embedded as `ToolCall` records: the
repository's `model_dump` round-trip of the id/name/arguments triple. -/
structure MessageDict where
  role : String
  content : Option String
  timestamp : String
  agent_name : Option String := none
  tool_calls : Option (List ToolCall) := none
  tool_call_id : Option String := none
  name : Option String := none
deriving DecidableEq

/-- `Message.to_dict`: role, content and ISO-8601 timestamp always;
`agent_name`, `tool_calls`, `tool_call_id`, `name` only when present;
`session_id` never serialized. -/
def Message.toDict (m : Message) : MessageDict :=
  { role := m.role
    content := m.content
    timestamp := m.timestamp.isoformat
    agent_name := m.agent_name
    tool_calls := m.tool_calls
    tool_call_id := m.tool_call_id
    name := m.name }

/-- `Message(**item)` on one decoded snapshot entry, after the
`datetime.fromisoformat` conversion of the timestamp string; a timestamp
that fails to parse falls back to `datetime.now()` (the `now` argument). -/
def messageOfDict (now : PyDatetime) (d : MessageDict) : Message :=
  { role := d.role
    content := d.content
    timestamp := (PyDatetime.fromisoformat d.timestamp).getD now
    tool_calls := d.tool_calls
    tool_call_id := d.tool_call_id
    name := d.name
    session_id := none
    agent_name := d.agent_name }

/-! ### `LocalJsonMemoryManager`

`exodus/core/memory/local_json_memory.py`.  The manager's state is its
`_short_term_memory` list; the snapshot file contents are the decoded JSON
array, a `List MessageDict`. -/

/-- `add_memory`: append to `_short_term_memory`. -/
def addMemory (mem : List Message) (m : Message) : List Message :=
  mem ++ [m]

/-- `clear_memory`. -/
def clearMemory : List Message := []

/-- `save_memory`: the JSON array written to the snapshot file. -/
def saveMemory (mem : List Message) : List MessageDict :=
  mem.map Message.toDict

/-- `load_memory` on an existing, well-formed snapshot file.  The source
executes `self.short_term_memory = []` — an assignment to a fresh
attribute whose name lacks the leading underscore of the real
`_short_term_memory` field — and then appends each decoded message to
`self._short_term_memory`, so the prior contents are retained and the file
contents are appended after them. -/
def loadMemory (mem : List Message) (file : List MessageDict) (now : PyDatetime) :
    List Message :=
  mem ++ file.map (messageOfDict now)

/-- `MemoryManager.get_llm_context`. -/
def getLlmContext (mem : List Message) : List OAIMsg :=
  mem.map Message.toOpenaiFormat

/-! ### Tool capability table and `ToolExecutor`

`exodus/core/registries/tool_registry.py` and
`exodus/core/tools/tool_executor.py`.  A capability's behaviour is a
function from parsed arguments to either `.ok r` — the `str()` of the
value the driver hands back (drivers catch their own exceptions and return
error strings as ordinary results) — or `.error e`, the text of an
exception raised inside the executor's `try` block. -/

/-- One registered capability. -/
structure Tool where
  run : Args → Except String String

/-- The capability table: `ToolPluginRegistry._tools`. -/
abbrev ToolRegistry := List (String × Tool)

/-- `ToolPluginRegistry.get_tool` as a partial lookup. -/
def getTool (reg : ToolRegistry) (name : String) : Option Tool :=
  match reg with
  | [] => none
  | (k, t) :: rest => if k = name then some t else getTool rest name

/-- `ToolExecutor.execute`: resolve the tool — `get_tool` raises
`ValueError("Tool {name} not found")` when absent — run it through the
driver, and re-raise any exception as
`ValueError("Failed to execute tool {name}: {e}")`. -/
def toolExecutorExecute (reg : ToolRegistry) (name : String) (args : Args) :
    Except String String :=
  match getTool reg name with
  | none =>
    .error ("Failed to execute tool " ++ name ++ ": Tool " ++ name ++ " not found")
  | some t =>
    match t.run args with
    | .ok r => .ok r
    | .error e => .error ("Failed to execute tool " ++ name ++ ": " ++ e)

/-! ### Agent definitions and the agent registry

`exodus/core/models/agent.py`, `exodus/core/registries/agent_registry.py`. -/

/-- The fields of `AgentDefinition` the engine and orchestrator read. -/
structure AgentDef where
  name : String
  description : String := ""
  system_prompt : Option String := none
  tools : List String := []
  handoffs : List String := []
deriving DecidableEq

/-- `HandoffRequest` of `exodus/core/models/agent.py`.  The reason is the
raw value `function_args.get("reason", ...)` returns, hence a `JVal`. -/
structure HandoffRequest where
  target_agent_name : String
  reason : JVal
  preserve_memory : Bool := true
deriving DecidableEq

/-- The agent registry `AgentRegistry._agents` as an association list;
`get_agent` raises `ValueError` on a missing name, embedded as `none`. -/
def getAgent (agents : List (String × AgentDef)) (name : String) : Option AgentDef :=
  match agents with
  | [] => none
  | (k, a) :: rest => if k = name then some a else getAgent rest name

/-! ### The Agent Engine

`exodus/agent_engine.py`, `AgentEngine.run_loop`. -/

/-- A provider response, as seen through `LLMProviderResponse`:
`is_tool_call()` distinguishes the constructors (`tool_calls is not
None`), `get_content()` is the `content` field, `get_tool_calls()` the
call list. -/
inductive LLMResponse where
  | text : Option String → LLMResponse
  | toolCalls : Option String → List ToolCall → LLMResponse

/-- The engine's collaborators: the model client as an oracle from the
built context and the current iteration counter to a response, the
capability table, the wall clock (`datetime.now()` indexed by how many
times it has been consulted) and the configured
`settings.get("agent.max_iterations", 100)`. -/
structure EngineEnv where
  llm : List OAIMsg → Nat → LLMResponse
  reg : ToolRegistry
  now : Nat → PyDatetime
  maxIter : Nat

/-- The mutable state the engine and orchestrator thread through a run:
the shared `_short_term_memory`, the engine's `loop_count`, the clock
cursor, and a ghost log of the `loop_count` values at which
`llm_provider.generate` was called (instrumentation only: nothing in the
embedded code reads it). -/
structure EngineState where
  memory : List Message
  loopCount : Nat
  clock : Nat
  genLog : List Nat := []
deriving DecidableEq

/-- `memory_manager.add_memory(Message(..., timestamp=datetime.now()))`:
append one message stamped with the current clock tick. -/
def EngineState.push (st : EngineState) (now : Nat → PyDatetime)
    (mk : PyDatetime → Message) : EngineState :=
  { st with memory := addMemory st.memory (mk (now st.clock)), clock := st.clock + 1 }

/-- The naming convention of synthesized handoff tools
(`f"transfer_to_{target_agent_name}"` in `_build_handoff_tools`). -/
def handoffToolMark : String := "transfer_to_"

/-- `function_name.startswith("transfer_to_")`. -/
def isHandoffName (name : String) : Bool :=
  pyStartsWith handoffToolMark name

/-- `function_name.replace("transfer_to_", "")`: Python `str.replace`
removes every non-overlapping occurrence, not just a leading one. -/
def transferTargetName (name : String) : String :=
  pyReplaceEmpty name handoffToolMark

/-- The `function_args.get("reason", "No reason provided")` of the handoff
branch. -/
def handoffReason (args : Args) : JVal :=
  (args.get "reason").getD (JVal.jstr "No reason provided")

/-- The transfer-acknowledgment tool message the handoff branch appends. -/
def ackMessage (agent : AgentDef) (c : ToolCall) (t : PyDatetime) : Message :=
  { role := "tool"
    content := some ("[Transferring to " ++ transferTargetName c.name ++ "]")
    timestamp := t
    tool_call_id := some c.id
    name := some c.name
    agent_name := some agent.name }

/-- The user message appended at the top of `run_loop` (no agent tag). -/
def userMessage (input : String) (t : PyDatetime) : Message :=
  { role := "user", content := some input, timestamp := t }

/-- The final assistant message of a non-tool-call response. -/
def assistantFinalMessage (agent : AgentDef) (content : Option String)
    (t : PyDatetime) : Message :=
  { role := "assistant", content := content, timestamp := t,
    agent_name := some agent.name }

/-- The assistant message recording a tool-call response, with its call
metadata. -/
def assistantCallsMessage (agent : AgentDef) (content : Option String)
    (calls : List ToolCall) (t : PyDatetime) : Message :=
  { role := "assistant", content := content, timestamp := t,
    tool_calls := some calls, agent_name := some agent.name }

/-- The tool-result message for a successful dispatch. -/
def toolResultMessage (agent : AgentDef) (c : ToolCall) (r : String)
    (t : PyDatetime) : Message :=
  { role := "tool", content := some r, timestamp := t,
    tool_call_id := some c.id, name := some c.name,
    agent_name := some agent.name }

/-- The `"Error: {str(e)}"` tool message for a failed dispatch. -/
def toolErrorMessage (agent : AgentDef) (c : ToolCall) (e : String)
    (t : PyDatetime) : Message :=
  { role := "tool", content := some ("Error: " ++ e), timestamp := t,
    tool_call_id := some c.id, name := some c.name,
    agent_name := some agent.name }

/-- The `### Regular tool execution` arm of the batch loop: run the call
through `ToolExecutor.execute` and append either the result message or the
`"Error: {str(e)}"` message; either way exactly one tool-role message is
appended and the loop proceeds. -/
def execCall (env : EngineEnv) (agent : AgentDef) (c : ToolCall)
    (st : EngineState) : EngineState :=
  match toolExecutorExecute env.reg c.name c.args with
  | .ok r => st.push env.now (toolResultMessage agent c r)
  | .error e => st.push env.now (toolErrorMessage agent c e)

/-- The `for tool_call in tool_calls:` body of `run_loop`: calls are
processed strictly in response order; the first call matching the handoff
naming convention appends the acknowledgment message and returns the
`HandoffRequest` at once, abandoning the rest of the batch. -/
def processCalls (env : EngineEnv) (agent : AgentDef) :
    List ToolCall → EngineState → EngineState × Option HandoffRequest
  | [], st => (st, none)
  | c :: rest, st =>
    if isHandoffName c.name then
      (st.push env.now (ackMessage agent c),
        some { target_agent_name := transferTargetName c.name
               reason := handoffReason c.args
               preserve_memory := true })
    else
      processCalls env agent rest (execCall env agent c st)

/-- Model context construction: `get_llm_context()` with the system prompt
inserted at position 0 when the agent has one. -/
def buildContext (agent : AgentDef) (mem : List Message) : List OAIMsg :=
  match agent.system_prompt with
  | some sp => { role := "system", content := some sp } :: getLlmContext mem
  | none => getLlmContext mem

/-- The `while self.loop_count < max_iterations:` loop of `run_loop`,
indexed by the remaining fuel (`run_loop` supplies
`maxIter - loop_count`).  Each iteration: build the context, call the
model (logged in `genLog`), then either append the final assistant message
and stop, or append the assistant message with its call metadata, process
the batch, and — when no handoff occurred — increment `loop_count` and
continue. -/
def runIters (env : EngineEnv) (agent : AgentDef) :
    Nat → EngineState → EngineState × Option HandoffRequest
  | 0, st => (st, none)
  | fuel + 1, st =>
    if st.loopCount < env.maxIter then
      let ctx := buildContext agent st.memory
      let resp := env.llm ctx st.loopCount
      let st := { st with genLog := st.genLog ++ [st.loopCount] }
      match resp with
      | .text content =>
        (st.push env.now (assistantFinalMessage agent content), none)
      | .toolCalls content calls =>
        let st := st.push env.now (assistantCallsMessage agent content calls)
        match processCalls env agent calls st with
        | (st', some hr) => (st', some hr)
        | (st', none) => runIters env agent fuel { st' with loopCount := st'.loopCount + 1 }
    else (st, none)

/-- `AgentEngine.run_loop`: append the user message when the input is
non-empty (Python truthiness of the string), then run the iteration loop
until a final answer, a handoff, or budget exhaustion. -/
def runLoop (env : EngineEnv) (agent : AgentDef) (userInput : String)
    (st : EngineState) : EngineState × Option HandoffRequest :=
  let st := if userInput ≠ "" then st.push env.now (userMessage userInput) else st
  runIters env agent (env.maxIter - st.loopCount) st

/-! ### The Session Orchestrator

`exodus/cli/session.py`, `ChatSession.send_message_stream`.  The method
cannot execute its loop body: `AgentEngine.run_loop` is a plain coroutine
returning `Optional[HandoffRequest]`, but `send_message_stream` applies
`async for` to it (`async for event in self.agent_engine.run_loop(...)`),
which raises `TypeError` because a coroutine is not an async iterator.
The coroutine object is created but never awaited, so the engine body
never starts, the conversation memory is untouched, and the exception
escapes to the caller.  Everything after line 183 — the `AgentChange`
detection (no such event is ever produced anywhere in the repository), the
handoff-context append, the engine rebuild with the previous counter, and
the unknown-target error branch at session.py:232-240 — is unreachable
dead code. -/

/-- The message of the `TypeError` CPython raises when `async for` is
applied to a coroutine object. -/
def asyncForTypeErrorMsg : String :=
  "\x27async for\x27 requires an object with __aiter__ method, got coroutine"

/-- `ChatSession.send_message_stream` as it actually executes: set
`current_input`, enter `while True`, and raise `TypeError` at the
`async for` over the coroutine returned by `run_loop`, before any model
call or memory mutation.  The result is the unchanged state paired with
the escaping exception's message; the collaborator arguments are listed to
mirror the method's dependencies, none of which it ever gets to use. -/
def sendMessageStream (_env : EngineEnv) (_agents : List (String × AgentDef))
    (_agent : AgentDef) (_userInput : String) (st : EngineState) :
    EngineState × Option String :=
  (st, some asyncForTypeErrorMsg)

/-! ### The Executor Service

`exodus/server/exodus_executor.py`, `ExodusExecutor._process_message`,
with the core plugin tools of `exodus/core/tools/plugin.py`.  The server's
`execute` branch calls the registered tool function directly with the
request's arguments as keyword arguments. -/

/-- A decoded executor request (`{"id", "command", "tool_name"?,
"tool_args"?}`); `command` is `none` when the key is absent, in which case
`message.get("command", "unknown")` yields `"unknown"`. -/
structure ExecRequest where
  command : Option String
  tool_name : Option String := none
  tool_args : Args := []
deriving DecidableEq

/-- An executor response `{"status", "message"}`. -/
structure ExecResponse where
  status : String
  message : JVal
deriving DecidableEq

/-- The behaviour of a server-side tool function called as
`tool_func(**tool_args)`: `.error` is an exception (whose text is
abstracted where CPython's wording is irrelevant to the repository). -/
abbrev ServerTool := Args → Except String JVal

/-- `sum(a, b) -> int: return a + b` of `exodus/core/tools/plugin.py`,
registered as `core_sum`.  Keyword binding requires exactly the parameters
`a` and `b`; `+` adds integers and concatenates strings, anything else is
a `TypeError`. -/
def pyCoreSum : ServerTool := fun args =>
  match args with
  | [("a", a), ("b", b)] | [("b", b), ("a", a)] =>
    match a, b with
    | .jint x, .jint y => .ok (.jint (x + y))
    | .jstr x, .jstr y => .ok (.jstr (x ++ y))
    | _, _ => .error "unsupported operand type(s) for +"
  | _ => .error "sum() received unexpected arguments"

/-- `core_bash_tool(command) -> str: return command`, registered as
`core_bash`; on the server it is invoked directly, so it just echoes the
argument. -/
def pyCoreBash : ServerTool := fun args =>
  match args with
  | [("command", v)] => .ok v
  | _ => .error "core_bash_tool() received unexpected arguments"

/-- Modelled from the spec: the entry-point wiring that registers
`CorePlugin.get_tools()` — `{core_bash, core_sum}` from
`exodus/core/tools/plugin.py` — with the server's own
`ToolPluginRegistry.load_from_plugins()`; the `pyproject` entry-point
declaration itself is not under `src/`.  The spec: "Server loads its own
capability table independently at startup". -/
def serverToolTable : List (String × ServerTool) :=
  [("core_bash", pyCoreBash), ("core_sum", pyCoreSum)]

/-- `ExodusExecutor._process_message`.  `.error` marks an exception
escaping the method (converted to an error response by `_handle_client`).
The `list_tools` branch calls `self._tool_registry.get_tool_list()`, a
method `ToolPluginRegistry` does not define, hence an `AttributeError`. -/
def processMessage (req : ExecRequest) : Except String ExecResponse :=
  let command := req.command.getD "unknown"
  if command = "ping" then
    .ok { status := "success", message := .jstr "pong" }
  else if command = "list_tools" then
    .error "ToolPluginRegistry object has no attribute get_tool_list"
  else if command = "execute" then
    match req.tool_name with
    | none | some "" =>
      .ok { status := "error", message := .jstr "Tool name is required" }
    | some toolName =>
      match lookupServerTool serverToolTable toolName with
      | none =>
        .ok { status := "error", message := .jstr ("Tool " ++ toolName ++ " not found") }
      | some f =>
        match f req.tool_args with
        | .ok result => .ok { status := "success", message := result }
        | .error e => .ok { status := "error", message := .jstr e }
  else
    .ok { status := "error", message := .jstr "The command is invalid; please try again" }
where
  /-- the server registry's `get_tool` lookup -/
  lookupServerTool : List (String × ServerTool) → String → Option ServerTool
    | [], _ => none
    | (k, t) :: rest, n => if k = n then some t else lookupServerTool rest n

/-! ### Derived notions used by the statements -/

/-- Executing the calls of one batch in order: the `for` loop restricted to
its non-handoff arm. -/
def execAll (env : EngineEnv) (agent : AgentDef) (calls : List ToolCall)
    (st : EngineState) : EngineState :=
  calls.foldl (fun s c => execCall env agent c s) st

/-- How the engine tags the messages it appends: assistant and tool
messages carry the engine's agent name, the user message carries none. -/
def engineTagged (agent : AgentDef) (m : Message) : Prop :=
  (m.role = "assistant" → m.agent_name = some agent.name) ∧
  (m.role = "tool" → m.agent_name = some agent.name) ∧
  (m.role = "user" → m.agent_name = none)

/-! ### Concrete instances used by witnesses and counterexamples -/

/-- A deterministic wall clock for concrete runs. -/
def demoNow : Nat → PyDatetime := fun n => ⟨2024, 1, 1, 0, 0, 0, n⟩

/-- The empty engine state of a fresh session. -/
def initialState : EngineState := { memory := [], loopCount := 0, clock := 0 }

def demoAgent : AgentDef := { name := "MainAgent", description := "demo" }

/-- A model oracle that always answers with plain text. -/
def demoTextEnv : EngineEnv :=
  { llm := fun _ _ => .text (some "hello"), reg := [], now := demoNow, maxIter := 100 }

/-- A capability that always succeeds. -/
def echoTool : Tool := ⟨fun _ => .ok "ok"⟩

/-- A capability whose execution raises. -/
def failTool : Tool := ⟨fun _ => .error "boom"⟩

/-- A registry holding one good tool, one failing tool, and — to probe the
handoff interception — a tool registered under a handoff-shaped name. -/
def demoRegistry : ToolRegistry :=
  [("echo", echoTool), ("bad_tool", failTool), ("transfer_to_billing", echoTool)]

/-- An environment with the demo registry and a text-only oracle. -/
def demoToolEnv : EngineEnv :=
  { llm := fun _ _ => .text none, reg := demoRegistry, now := demoNow, maxIter := 100 }

/-- A message persisted and re-loaded in the save/load round trip. -/
def persistedMessage : Message :=
  { role := "user", content := some "persist me", timestamp := ⟨2024, 5, 6, 7, 8, 9, 123456⟩ }

/-- A message already in memory before a snapshot load. -/
def priorMessage : Message :=
  { role := "system", content := some "sys prompt", timestamp := ⟨2024, 1, 1, 0, 0, 0, 0⟩ }

/-- A message decoded from a snapshot file. -/
def fileMessage : Message :=
  { role := "user", content := some "loaded", timestamp := ⟨2024, 2, 2, 2, 2, 2, 0⟩ }

/-- A stand-in `datetime.now()` used as the parse-failure fallback. -/
def fallbackNow : PyDatetime := ⟨2030, 1, 1, 0, 0, 0, 0⟩

/-! ## Helper lemmas -/

@[simp]
theorem push_memory (st : EngineState) (now : Nat → PyDatetime)
    (mk : PyDatetime → Message) :
    (st.push now mk).memory = st.memory ++ [mk (now st.clock)] := rfl

@[simp]
theorem push_loopCount (st : EngineState) (now : Nat → PyDatetime)
    (mk : PyDatetime → Message) :
    (st.push now mk).loopCount = st.loopCount := rfl

@[simp]
theorem push_genLog (st : EngineState) (now : Nat → PyDatetime)
    (mk : PyDatetime → Message) :
    (st.push now mk).genLog = st.genLog := rfl

@[simp]
theorem push_clock (st : EngineState) (now : Nat → PyDatetime)
    (mk : PyDatetime → Message) :
    (st.push now mk).clock = st.clock + 1 := rfl

/-- `execCall` appends exactly one tool-role message, correlated with the
call's id and tagged with the engine's agent, and touches nothing else. -/
theorem execCall_spec (env : EngineEnv) (agent : AgentDef) (c : ToolCall)
    (st : EngineState) :
    ∃ m, execCall env agent c st =
        { st with memory := st.memory ++ [m], clock := st.clock + 1 } ∧
      m.role = "tool" ∧ m.tool_call_id = some c.id ∧ m.name = some c.name ∧
      m.agent_name = some agent.name := by
  unfold execCall
  cases toolExecutorExecute env.reg c.name c.args with
  | ok r => exact ⟨_, rfl, rfl, rfl, rfl, rfl⟩
  | error e => exact ⟨_, rfl, rfl, rfl, rfl, rfl⟩

@[simp]
theorem execCall_loopCount (env : EngineEnv) (agent : AgentDef) (c : ToolCall)
    (st : EngineState) :
    (execCall env agent c st).loopCount = st.loopCount := by
  obtain ⟨m, hst, -⟩ := execCall_spec env agent c st
  rw [hst]

@[simp]
theorem execCall_genLog (env : EngineEnv) (agent : AgentDef) (c : ToolCall)
    (st : EngineState) :
    (execCall env agent c st).genLog = st.genLog := by
  obtain ⟨m, hst, -⟩ := execCall_spec env agent c st
  rw [hst]

/-- `execCall` extends the memory by exactly one tool-role message. -/
theorem execCall_memory (env : EngineEnv) (agent : AgentDef) (c : ToolCall)
    (st : EngineState) :
    ∃ m, (execCall env agent c st).memory = st.memory ++ [m] ∧
      m.role = "tool" ∧ m.tool_call_id = some c.id ∧ m.name = some c.name ∧
      m.agent_name = some agent.name := by
  obtain ⟨m, hst, h⟩ := execCall_spec env agent c st
  exact ⟨m, by rw [hst], h⟩

@[simp]
theorem execAll_nil (env : EngineEnv) (agent : AgentDef) (st : EngineState) :
    execAll env agent [] st = st := rfl

@[simp]
theorem execAll_cons (env : EngineEnv) (agent : AgentDef) (c : ToolCall)
    (calls : List ToolCall) (st : EngineState) :
    execAll env agent (c :: calls) st = execAll env agent calls (execCall env agent c st) := rfl

/-- Batch execution appends one result message per call, in call order,
each correlated with its call's id. -/
theorem execAll_memory (env : EngineEnv) (agent : AgentDef)
    (calls : List ToolCall) (st : EngineState) :
    ∃ L, (execAll env agent calls st).memory = st.memory ++ L ∧
      L.length = calls.length ∧
      ∀ i, (hi : i < calls.length) → (hL : i < L.length) →
        (L.get ⟨i, hL⟩).role = "tool" ∧
        (L.get ⟨i, hL⟩).tool_call_id = some ((calls.get ⟨i, hi⟩).id) := by
  induction calls generalizing st with
  | nil => exact ⟨[], by simp, rfl, fun i hi => absurd hi (by simp)⟩
  | cons c rest ih =>
    obtain ⟨m, hm, hrole, hid, -, -⟩ := execCall_memory env agent c st
    obtain ⟨L, hL, hlen, hprops⟩ := ih (execCall env agent c st)
    refine ⟨m :: L, ?_, by simp [hlen], ?_⟩
    · simp [hL, hm]
    · intro i hi hLi
      cases i with
      | zero => exact ⟨hrole, hid⟩
      | succ j =>
        exact hprops j (Nat.lt_of_succ_lt_succ hi) (Nat.lt_of_succ_lt_succ hLi)

/-- A batch with no handoff call is processed by executing every call in
order and yields no handoff. -/
theorem processCalls_no_handoff (env : EngineEnv) (agent : AgentDef)
    (calls : List ToolCall) (st : EngineState)
    (h : ∀ c ∈ calls, isHandoffName c.name = false) :
    processCalls env agent calls st = (execAll env agent calls st, none) := by
  induction calls generalizing st with
  | nil => rfl
  | cons c rest ih =>
    have hc : isHandoffName c.name = false := h c (by simp)
    simp only [processCalls, hc, Bool.false_eq_true, if_false, execAll_cons]
    exact ih (execCall env agent c st) (fun x hx => h x (by simp [hx]))

/-- `processCalls` never changes the iteration counter. -/
@[simp]
theorem processCalls_loopCount (env : EngineEnv) (agent : AgentDef)
    (calls : List ToolCall) (st : EngineState) :
    (processCalls env agent calls st).1.loopCount = st.loopCount := by
  induction calls generalizing st with
  | nil => rfl
  | cons c rest ih =>
    simp only [processCalls]
    by_cases hc : isHandoffName c.name
    · simp [hc]
    · simp [hc, ih]

/-- `processCalls` never calls the model. -/
@[simp]
theorem processCalls_genLog (env : EngineEnv) (agent : AgentDef)
    (calls : List ToolCall) (st : EngineState) :
    (processCalls env agent calls st).1.genLog = st.genLog := by
  induction calls generalizing st with
  | nil => rfl
  | cons c rest ih =>
    simp only [processCalls]
    by_cases hc : isHandoffName c.name
    · simp [hc]
    · simp [hc, ih]

/-- `processCalls` only ever appends messages. -/
theorem processCalls_memory_extend (env : EngineEnv) (agent : AgentDef)
    (calls : List ToolCall) (st : EngineState) :
    ∃ tail, (processCalls env agent calls st).1.memory = st.memory ++ tail := by
  induction calls generalizing st with
  | nil => exact ⟨[], by simp [processCalls]⟩
  | cons c rest ih =>
    simp only [processCalls]
    by_cases hc : isHandoffName c.name
    · exact ⟨[ackMessage agent c (env.now st.clock)], by simp [hc]⟩
    · obtain ⟨t1, ht1⟩ := ih (execCall env agent c st)
      obtain ⟨m, hm, -⟩ := execCall_memory env agent c st
      exact ⟨m :: t1, by simp [hc, ht1, hm]⟩

theorem engineTagged_of_tool (agent : AgentDef) (m : Message)
    (hrole : m.role = "tool") (htag : m.agent_name = some agent.name) :
    engineTagged agent m := by
  refine ⟨fun h => ?_, fun _ => htag, fun h => ?_⟩ <;> rw [hrole] at h <;> simp_all

/-- Batch processing appends only engine-tagged messages. -/
theorem processCalls_memory_tagged (env : EngineEnv) (agent : AgentDef)
    (calls : List ToolCall) (st : EngineState) :
    ∃ tail, (processCalls env agent calls st).1.memory = st.memory ++ tail ∧
      ∀ m ∈ tail, engineTagged agent m := by
  induction calls generalizing st with
  | nil => exact ⟨[], by simp [processCalls], by simp⟩
  | cons c rest ih =>
    simp only [processCalls]
    by_cases hc : isHandoffName c.name
    · refine ⟨[ackMessage agent c (env.now st.clock)], by simp [hc], ?_⟩
      intro m hm
      rw [List.mem_singleton] at hm
      subst hm
      exact engineTagged_of_tool agent _ rfl rfl
    · obtain ⟨t1, ht1, htag1⟩ := ih (execCall env agent c st)
      obtain ⟨m, hm, hrole, -, -, htag⟩ := execCall_memory env agent c st
      refine ⟨m :: t1, by simp [hc, ht1, hm], ?_⟩
      intro x hx
      rcases List.mem_cons.mp hx with hx | hx
      · subst hx
        exact engineTagged_of_tool agent _ hrole htag
      · exact htag1 x hx

theorem engineTagged_assistantFinal (agent : AgentDef) (content : Option String)
    (t : PyDatetime) : engineTagged agent (assistantFinalMessage agent content t) := by
  refine ⟨fun _ => rfl, fun h => ?_, fun h => ?_⟩ <;> simp [assistantFinalMessage] at h

theorem engineTagged_assistantCalls (agent : AgentDef) (content : Option String)
    (calls : List ToolCall) (t : PyDatetime) :
    engineTagged agent (assistantCallsMessage agent content calls t) := by
  refine ⟨fun _ => rfl, fun h => ?_, fun h => ?_⟩ <;> simp [assistantCallsMessage] at h

theorem engineTagged_user (agent : AgentDef) (input : String) (t : PyDatetime) :
    engineTagged agent (userMessage input t) := by
  refine ⟨fun h => ?_, fun h => ?_, fun _ => rfl⟩ <;> simp [userMessage] at h

/-- One engine run appends only engine-tagged messages and leaves the
prior history untouched. -/
theorem runIters_memory_tagged (env : EngineEnv) (agent : AgentDef)
    (fuel : Nat) (st : EngineState) :
    ∃ tail, (runIters env agent fuel st).1.memory = st.memory ++ tail ∧
      ∀ m ∈ tail, engineTagged agent m := by
  induction fuel generalizing st with
  | zero => exact ⟨[], by simp [runIters], by simp⟩
  | succ fuel ih =>
    by_cases hguard : st.loopCount < env.maxIter
    · rcases hresp : env.llm (buildContext agent st.memory) st.loopCount with
        content | ⟨content, calls⟩
      · refine ⟨[assistantFinalMessage agent content (env.now st.clock)], ?_, ?_⟩
        · simp [runIters, hguard, hresp]
        · intro m hm
          rw [List.mem_singleton] at hm
          subst hm
          exact engineTagged_assistantFinal agent content _
      · obtain ⟨t1, ht1, htag1⟩ :=
          processCalls_memory_tagged env agent calls
            ({ st with genLog := st.genLog ++ [st.loopCount] }.push env.now
              (assistantCallsMessage agent content calls))
        rcases hp : processCalls env agent calls
            ({ st with genLog := st.genLog ++ [st.loopCount] }.push env.now
              (assistantCallsMessage agent content calls)) with ⟨st', ho⟩
        rw [hp] at ht1
        simp only [push_memory] at ht1
        cases ho with
        | none =>
          obtain ⟨t2, ht2, htag2⟩ := ih { st' with loopCount := st'.loopCount + 1 }
          refine ⟨assistantCallsMessage agent content calls (env.now st.clock)
              :: (t1 ++ t2), ?_, ?_⟩
          · simp only [runIters, hguard, if_true, hresp, hp]
            simp only at ht2
            rw [ht2, ht1]
            simp
          · intro m hm
            rcases List.mem_cons.mp hm with hm | hm
            · subst hm; exact engineTagged_assistantCalls agent content calls _
            · rcases List.mem_append.mp hm with hm | hm
              · exact htag1 m hm
              · exact htag2 m hm
        | some hr =>
          refine ⟨assistantCallsMessage agent content calls (env.now st.clock)
              :: t1, ?_, ?_⟩
          · simp only [runIters, hguard, if_true, hresp, hp]
            rw [ht1]
            simp
          · intro m hm
            rcases List.mem_cons.mp hm with hm | hm
            · subst hm; exact engineTagged_assistantCalls agent content calls _
            · exact htag1 m hm
    · exact ⟨[], by simp [runIters, hguard], by simp⟩

/-- A full `run_loop` appends only engine-tagged messages. -/
theorem runLoop_memory_tagged (env : EngineEnv) (agent : AgentDef)
    (userInput : String) (st : EngineState) :
    ∃ tail, (runLoop env agent userInput st).1.memory = st.memory ++ tail ∧
      ∀ m ∈ tail, engineTagged agent m := by
  unfold runLoop
  by_cases hin : userInput ≠ ""
  · rw [if_pos hin]
    obtain ⟨t1, ht1, htag1⟩ := runIters_memory_tagged env agent
      (env.maxIter - (st.push env.now (userMessage userInput)).loopCount)
      (st.push env.now (userMessage userInput))
    refine ⟨userMessage userInput (env.now st.clock) :: t1, ?_, ?_⟩
    · rw [ht1]
      simp
    · intro m hm
      rcases List.mem_cons.mp hm with hm | hm
      · subst hm; exact engineTagged_user agent userInput _
      · exact htag1 m hm
  · rw [if_neg hin]
    exact runIters_memory_tagged env agent (env.maxIter - st.loopCount) st

/-- The iteration counter never decreases across one engine loop. -/
theorem runIters_loopCount_mono (env : EngineEnv) (agent : AgentDef)
    (fuel : Nat) (st : EngineState) :
    st.loopCount ≤ (runIters env agent fuel st).1.loopCount := by
  induction fuel generalizing st with
  | zero => simp [runIters]
  | succ fuel ih =>
    by_cases hguard : st.loopCount < env.maxIter
    · rcases hresp : env.llm (buildContext agent st.memory) st.loopCount with
        content | ⟨content, calls⟩
      · simp [runIters, hguard, hresp]
      · rcases hp : processCalls env agent calls
            ({ st with genLog := st.genLog ++ [st.loopCount] }.push env.now
              (assistantCallsMessage agent content calls)) with ⟨st', ho⟩
        have hcount : st'.loopCount = st.loopCount := by
          have := processCalls_loopCount env agent calls
            ({ st with genLog := st.genLog ++ [st.loopCount] }.push env.now
              (assistantCallsMessage agent content calls))
          rw [hp] at this
          simpa using this
        cases ho with
        | none =>
          have := ih { st' with loopCount := st'.loopCount + 1 }
          simp only [runIters, hguard, if_true, hresp, hp]
          simp only at this
          omega
        | some hr => simp [runIters, hguard, hresp, hp, hcount]
    · simp [runIters, hguard]

theorem runLoop_loopCount_mono (env : EngineEnv) (agent : AgentDef)
    (userInput : String) (st : EngineState) :
    st.loopCount ≤ (runLoop env agent userInput st).1.loopCount := by
  unfold runLoop
  by_cases hin : userInput ≠ ""
  · simpa [hin] using runIters_loopCount_mono env agent
      (env.maxIter - st.loopCount) (st.push env.now (userMessage userInput))
  · simpa [hin] using runIters_loopCount_mono env agent
      (env.maxIter - st.loopCount) st

/-- Every model call the loop makes happens at a counter value below the
configured maximum (new `genLog` entries are all < `maxIter`). -/
theorem runIters_genLog_bound (env : EngineEnv) (agent : AgentDef)
    (fuel : Nat) (st : EngineState) (i : Nat)
    (hmem : i ∈ (runIters env agent fuel st).1.genLog) :
    i ∈ st.genLog ∨ i < env.maxIter := by
  induction fuel generalizing st with
  | zero => simp [runIters] at hmem; exact Or.inl hmem
  | succ fuel ih =>
    by_cases hguard : st.loopCount < env.maxIter
    · rcases hresp : env.llm (buildContext agent st.memory) st.loopCount with
        content | ⟨content, calls⟩
      · simp [runIters, hguard, hresp] at hmem
        rcases hmem with hmem | hmem
        · exact Or.inl hmem
        · subst hmem; exact Or.inr hguard
      · rcases hp : processCalls env agent calls
            ({ st with genLog := st.genLog ++ [st.loopCount] }.push env.now
              (assistantCallsMessage agent content calls)) with ⟨st', ho⟩
        have hlog : st'.genLog = st.genLog ++ [st.loopCount] := by
          have := processCalls_genLog env agent calls
            ({ st with genLog := st.genLog ++ [st.loopCount] }.push env.now
              (assistantCallsMessage agent content calls))
          rw [hp] at this
          simpa using this
        cases ho with
        | none =>
          simp only [runIters, hguard, if_true, hresp, hp] at hmem
          rcases ih { st' with loopCount := st'.loopCount + 1 } hmem with h | h
          · simp only [hlog, List.mem_append, List.mem_singleton] at h
            rcases h with h | h
            · exact Or.inl h
            · subst h; exact Or.inr hguard
          · exact Or.inr h
        | some hr =>
          simp only [runIters, hguard, if_true, hresp, hp] at hmem
          rw [hlog] at hmem
          simp only [List.mem_append, List.mem_singleton] at hmem
          rcases hmem with h | h
          · exact Or.inl h
          · subst h; exact Or.inr hguard
    · simp [runIters, hguard] at hmem
      exact Or.inl hmem

theorem runLoop_genLog_bound (env : EngineEnv) (agent : AgentDef)
    (userInput : String) (st : EngineState) (i : Nat)
    (hmem : i ∈ ((runLoop env agent userInput st).1).genLog) :
    i ∈ st.genLog ∨ i < env.maxIter := by
  unfold runLoop at hmem
  by_cases hin : userInput ≠ ""
  · rw [if_pos hin] at hmem
    simpa using runIters_genLog_bound env agent _ _ i hmem
  · rw [if_neg hin] at hmem
    exact runIters_genLog_bound env agent _ _ i hmem

/-- Processing a batch whose first handoff-named call is `hc`: the calls
before it are executed one by one, the acknowledgment for `hc` is
appended, and the handoff request is returned at once — the calls after
`hc` play no role. -/
theorem processCalls_first_handoff (env : EngineEnv) (agent : AgentDef)
    (hc : ToolCall) (hhc : isHandoffName hc.name = true) :
    ∀ (pre post : List ToolCall) (st : EngineState),
      (∀ c ∈ pre, isHandoffName c.name = false) →
      processCalls env agent (pre ++ hc :: post) st =
        ((execAll env agent pre st).push env.now (ackMessage agent hc),
          some { target_agent_name := transferTargetName hc.name
                 reason := handoffReason hc.args
                 preserve_memory := true })
  | [], post, st, _ => by simp [processCalls, hhc]
  | c :: rest, post, st, hpre => by
    have hcname : isHandoffName c.name = false := hpre c (by simp)
    simp only [List.cons_append, processCalls, hcname, Bool.false_eq_true, if_false,
      execAll_cons]
    exact processCalls_first_handoff env agent hc hhc rest post
      (execCall env agent c st) (fun x hx => hpre x (by simp [hx]))

/-! ## The claims -/

/-- C1: in a batch of tool calls, a call whose name matches the handoff
naming convention (prefix `transfer_to_`) appends the
transfer-acknowledgment tool message and makes the engine return exactly
one Handoff Request immediately; every earlier call in the batch has been
executed with its result message recorded (one result message per earlier
call), and the calls after it do not influence the outcome at all (the
result is independent of `post`). -/
theorem handoff_halts_batch (env : EngineEnv) (agent : AgentDef)
    (pre : List ToolCall) (hc : ToolCall) (post : List ToolCall)
    (st : EngineState) (hpre : ∀ c ∈ pre, isHandoffName c.name = false)
    (hhc : isHandoffName hc.name = true) :
    processCalls env agent (pre ++ hc :: post) st =
      ((execAll env agent pre st).push env.now (ackMessage agent hc),
        some { target_agent_name := transferTargetName hc.name
               reason := handoffReason hc.args
               preserve_memory := true }) ∧
    ∃ L, (execAll env agent pre st).memory = st.memory ++ L ∧
      L.length = pre.length := by
  refine ⟨processCalls_first_handoff env agent hc hhc pre post st hpre, ?_⟩
  obtain ⟨L, hL, hlen, -⟩ := execAll_memory env agent pre st
  exact ⟨L, hL, hlen⟩

/-- Witness for C1 at a concrete batch: one preceding echo call, the
handoff call `transfer_to_billing`, one trailing call. -/
theorem handoff_halts_batch_witness :
    processCalls demoToolEnv demoAgent
        ([⟨"c1", "echo", []⟩] ++ ⟨"c2", "transfer_to_billing",
          [("reason", .jstr "need billing")]⟩ :: [⟨"c3", "echo", []⟩]) initialState =
      ((execAll demoToolEnv demoAgent [⟨"c1", "echo", []⟩] initialState).push
          demoToolEnv.now
          (ackMessage demoAgent ⟨"c2", "transfer_to_billing",
            [("reason", .jstr "need billing")]⟩),
        some { target_agent_name := "billing"
               reason := .jstr "need billing"
               preserve_memory := true }) ∧
    ∃ L, (execAll demoToolEnv demoAgent [⟨"c1", "echo", []⟩] initialState).memory =
      initialState.memory ++ L ∧ L.length = 1 :=
  handoff_halts_batch demoToolEnv demoAgent [⟨"c1", "echo", []⟩]
    ⟨"c2", "transfer_to_billing", [("reason", .jstr "need billing")]⟩
    [⟨"c3", "echo", []⟩] initialState (by decide) (by decide)

/-- C2: a batch without handoff calls yields no handoff, appends exactly
one tool-result message per call in call order, each correlated with its
call's id; and each later call is dispatched only in the state already
holding the prior call's result message (the recursion happens on
`execCall`'s output state, which appends exactly one correlated tool
message). -/
theorem batch_results_in_call_order :
    (∀ (env : EngineEnv) (agent : AgentDef) (calls : List ToolCall)
      (st : EngineState), (∀ c ∈ calls, isHandoffName c.name = false) →
      (processCalls env agent calls st).2 = none ∧
      ∃ L, (processCalls env agent calls st).1.memory = st.memory ++ L ∧
        L.length = calls.length ∧
        ∀ i, (hi : i < calls.length) → (hL : i < L.length) →
          (L.get ⟨i, hL⟩).role = "tool" ∧
          (L.get ⟨i, hL⟩).tool_call_id = some ((calls.get ⟨i, hi⟩).id)) ∧
    (∀ (env : EngineEnv) (agent : AgentDef) (c : ToolCall)
      (rest : List ToolCall) (st : EngineState), isHandoffName c.name = false →
      processCalls env agent (c :: rest) st =
        processCalls env agent rest (execCall env agent c st) ∧
      ∃ m, (execCall env agent c st).memory = st.memory ++ [m] ∧
        m.role = "tool" ∧ m.tool_call_id = some c.id) := by
  constructor
  · intro env agent calls st h
    rw [processCalls_no_handoff env agent calls st h]
    exact ⟨rfl, execAll_memory env agent calls st⟩
  · intro env agent c rest st h
    refine ⟨by simp [processCalls, h], ?_⟩
    obtain ⟨m, hm, hrole, hid, -, -⟩ := execCall_memory env agent c st
    exact ⟨m, hm, hrole, hid⟩

/-- Witness for C2 at a concrete two-call batch (one succeeding and one
failing call) plus the sequencing clause at a concrete head call. -/
theorem batch_results_in_call_order_witness :
    ((processCalls demoToolEnv demoAgent [⟨"c1", "echo", []⟩, ⟨"c2", "bad_tool", []⟩]
        initialState).2 = none ∧
      ∃ L, (processCalls demoToolEnv demoAgent [⟨"c1", "echo", []⟩, ⟨"c2", "bad_tool", []⟩]
          initialState).1.memory = initialState.memory ++ L ∧
        L.length = [(⟨"c1", "echo", []⟩ : ToolCall), ⟨"c2", "bad_tool", []⟩].length ∧
        ∀ i, (hi : i < [(⟨"c1", "echo", []⟩ : ToolCall), ⟨"c2", "bad_tool", []⟩].length) →
          (hL : i < L.length) →
          (L.get ⟨i, hL⟩).role = "tool" ∧
          (L.get ⟨i, hL⟩).tool_call_id =
            some (([(⟨"c1", "echo", []⟩ : ToolCall), ⟨"c2", "bad_tool", []⟩].get ⟨i, hi⟩).id)) ∧
    (processCalls demoToolEnv demoAgent (⟨"c1", "echo", []⟩ :: [⟨"c2", "bad_tool", []⟩])
        initialState =
      processCalls demoToolEnv demoAgent [⟨"c2", "bad_tool", []⟩]
        (execCall demoToolEnv demoAgent ⟨"c1", "echo", []⟩ initialState) ∧
      ∃ m, (execCall demoToolEnv demoAgent ⟨"c1", "echo", []⟩ initialState).memory =
        initialState.memory ++ [m] ∧ m.role = "tool" ∧ m.tool_call_id = some "c1") :=
  ⟨batch_results_in_call_order.1 demoToolEnv demoAgent
      [⟨"c1", "echo", []⟩, ⟨"c2", "bad_tool", []⟩] initialState (by decide),
    batch_results_in_call_order.2 demoToolEnv demoAgent ⟨"c1", "echo", []⟩
      [⟨"c2", "bad_tool", []⟩] initialState (by decide)⟩

/-- C3: what holds and what cannot: no handoff chain ever executes — the
orchestrator call raises `TypeError` over the `run_loop` coroutine before
a single model call, leaving the state untouched (first conjunct), so the
counter-threading rebuild at session.py:217-227 is unreachable — while
within each engine run the claim's engine-level parts are real: the
counter never decreases, every `generate` call happens at a counter value
below the configured maximum (every new `genLog` entry is `< maxIter`),
and an exhausted budget ends `run_loop` as normal completion returning no
Handoff Request, with no mutation beyond the initial user-message
append. -/
theorem iteration_budget_engine_facts_dead_chain :
    sendMessageStream demoTextEnv [] demoAgent "hi" initialState =
      (initialState, some asyncForTypeErrorMsg) ∧
    (∀ (env : EngineEnv) (agent : AgentDef) (input : String) (st : EngineState),
      st.loopCount ≤ (runLoop env agent input st).1.loopCount) ∧
    (∀ (env : EngineEnv) (agent : AgentDef) (input : String) (st : EngineState)
      (i : Nat), i ∈ ((runLoop env agent input st).1).genLog →
      i ∈ st.genLog ∨ i < env.maxIter) ∧
    (∀ (env : EngineEnv) (agent : AgentDef) (input : String) (st : EngineState),
      env.maxIter ≤ st.loopCount →
      runLoop env agent input st =
        ((if input ≠ "" then st.push env.now (userMessage input) else st), none)) := by
  refine ⟨rfl, runLoop_loopCount_mono, runLoop_genLog_bound, ?_⟩
  intro env agent input st h
  unfold runLoop
  by_cases hin : input ≠ ""
  · rw [if_pos hin]
    show runIters env agent
      (env.maxIter - (st.push env.now (userMessage input)).loopCount)
      (st.push env.now (userMessage input)) = _
    have h0 : env.maxIter - (st.push env.now (userMessage input)).loopCount = 0 := by
      rw [push_loopCount]
      omega
    rw [h0]
    rfl
  · rw [if_neg hin]
    show runIters env agent (env.maxIter - st.loopCount) st = _
    have h0 : env.maxIter - st.loopCount = 0 := Nat.sub_eq_zero_of_le h
    rw [h0]
    rfl

/-- Witness for C3's theorem: a concrete engine run from a fresh state
does not decrease the counter; its single model call happens at counter
0 < 100; and a run entered with the counter at the maximum returns no
handoff and only appends the user message. -/
theorem iteration_budget_engine_facts_dead_chain_witness :
    initialState.loopCount ≤
      (runLoop demoTextEnv demoAgent "hi" initialState).1.loopCount ∧
    (0 ∈ (initialState.genLog) ∨ 0 < demoTextEnv.maxIter) ∧
    runLoop demoTextEnv demoAgent "hi"
        { memory := [], loopCount := 100, clock := 0 } =
      (({ memory := [], loopCount := 100, clock := 0 } : EngineState).push
        demoTextEnv.now (userMessage "hi"), none) :=
  ⟨iteration_budget_engine_facts_dead_chain.2.1 demoTextEnv demoAgent "hi" initialState,
    iteration_budget_engine_facts_dead_chain.2.2.1 demoTextEnv demoAgent "hi"
      initialState 0 (by decide),
    iteration_budget_engine_facts_dead_chain.2.2.2 demoTextEnv demoAgent "hi"
      { memory := [], loopCount := 100, clock := 0 } (by decide)⟩

/-- C4: a tool call that names an absent capability — and likewise one
whose execution raises — never escapes `run_loop` as an exception: the
failure becomes a tool-role message whose content carries the failure text
in the `Error: <message>` form (`toolErrorMessage` prepends `"Error: "`),
the message is appended to the context, and the batch loop continues with
the next call. -/
theorem tool_failure_recovered_in_context :
    (∀ (env : EngineEnv) (agent : AgentDef) (c : ToolCall) (st : EngineState),
      getTool env.reg c.name = none →
      execCall env agent c st = st.push env.now
        (toolErrorMessage agent c
          ("Failed to execute tool " ++ c.name ++ ": Tool " ++ c.name ++ " not found"))) ∧
    (∀ (env : EngineEnv) (agent : AgentDef) (c : ToolCall) (st : EngineState)
      (tl : Tool) (e : String),
      getTool env.reg c.name = some tl → tl.run c.args = .error e →
      execCall env agent c st = st.push env.now
        (toolErrorMessage agent c ("Failed to execute tool " ++ c.name ++ ": " ++ e))) ∧
    (∀ (env : EngineEnv) (agent : AgentDef) (c : ToolCall) (rest : List ToolCall)
      (st : EngineState), isHandoffName c.name = false →
      processCalls env agent (c :: rest) st =
        processCalls env agent rest (execCall env agent c st)) := by
  refine ⟨?_, ?_, ?_⟩
  · intro env agent c st h
    simp [execCall, toolExecutorExecute, h]
  · intro env agent c st tl e h1 h2
    simp [execCall, toolExecutorExecute, h1, h2]
  · intro env agent c rest st h
    simp [processCalls, h]

/-- Witness for C4: the unknown tool `missing_tool`, the raising tool
`bad_tool`, and loop continuation past the failed head call. -/
theorem tool_failure_recovered_in_context_witness :
    execCall demoToolEnv demoAgent ⟨"c9", "missing_tool", []⟩ initialState =
      initialState.push demoToolEnv.now
        (toolErrorMessage demoAgent ⟨"c9", "missing_tool", []⟩
          "Failed to execute tool missing_tool: Tool missing_tool not found") ∧
    execCall demoToolEnv demoAgent ⟨"c8", "bad_tool", []⟩ initialState =
      initialState.push demoToolEnv.now
        (toolErrorMessage demoAgent ⟨"c8", "bad_tool", []⟩
          "Failed to execute tool bad_tool: boom") ∧
    processCalls demoToolEnv demoAgent (⟨"c9", "missing_tool", []⟩ :: [⟨"c1", "echo", []⟩])
        initialState =
      processCalls demoToolEnv demoAgent [⟨"c1", "echo", []⟩]
        (execCall demoToolEnv demoAgent ⟨"c9", "missing_tool", []⟩ initialState) :=
  ⟨tool_failure_recovered_in_context.1 demoToolEnv demoAgent ⟨"c9", "missing_tool", []⟩
      initialState rfl,
    tool_failure_recovered_in_context.2.1 demoToolEnv demoAgent ⟨"c8", "bad_tool", []⟩
      initialState failTool "boom" rfl rfl,
    tool_failure_recovered_in_context.2.2 demoToolEnv demoAgent ⟨"c9", "missing_tool", []⟩
      [⟨"c1", "echo", []⟩] initialState (by decide)⟩

/-- C7 counterexample: in a concrete engine run from an empty history —
the message processing the claim's own source lines point at
(agent_engine.py:86-91) — the first appended message, the user's, carries
`agent_name = none`, so not every appended message is tagged with its
originating agent's name. -/
theorem engine_user_message_untagged :
    ((runLoop demoTextEnv demoAgent "hi" initialState).1).memory.map
      Message.agent_name = [none, some "MainAgent"] := by
  rfl

/-- C7 (amended): within an engine run — the only message processing that
can execute, since the orchestrator's `send_message_stream` raises
`TypeError` iterating the `run_loop` coroutine and mutates nothing (second
conjunct) — the history is never truncated or rewritten: every mutation
appends a new message, the prior history survives byte-for-byte as a
prefix, and the assistant and tool messages the engine appends are tagged
with its agent's name, while the appended user message carries no agent
tag. -/
theorem engine_history_append_only_with_tags :
    (∀ (env : EngineEnv) (agent : AgentDef) (input : String) (st : EngineState),
      ∃ tail, ((runLoop env agent input st).1).memory = st.memory ++ tail ∧
        ∀ m ∈ tail, engineTagged agent m) ∧
    (∀ (env : EngineEnv) (agents : List (String × AgentDef)) (agent : AgentDef)
      (input : String) (st : EngineState),
      sendMessageStream env agents agent input st = (st, some asyncForTypeErrorMsg)) :=
  ⟨runLoop_memory_tagged, fun _ _ _ _ _ => rfl⟩

/-- Witness for the amended C7 at a concrete engine run. -/
theorem engine_history_append_only_with_tags_witness :
    ∃ tail, ((runLoop demoTextEnv demoAgent "hi" initialState).1).memory =
      initialState.memory ++ tail ∧ ∀ m ∈ tail, engineTagged demoAgent m :=
  engine_history_append_only_with_tags.1 demoTextEnv demoAgent "hi" initialState

/-- C8: evaluation at the failing input.  No Handoff Request ever reaches
the orchestrator: `send_message_stream` raises `TypeError` at the
`async for` over the `run_loop` coroutine, so the unknown-target branch at
session.py:232-240 — the appended error tool message and the abort of the
chain — never executes; the call leaves the conversation history exactly
as it was and surfaces the `TypeError` instead. -/
theorem send_message_stream_typeerror_no_handoff_handling :
    sendMessageStream demoToolEnv [("Helper", demoAgent)] demoAgent "go" initialState =
      (initialState, some asyncForTypeErrorMsg) ∧
    (sendMessageStream demoToolEnv [("Helper", demoAgent)] demoAgent "go"
      initialState).1.memory = initialState.memory :=
  ⟨rfl, rfl⟩

/-- C10: every call whose name starts with `transfer_to_` is interpreted
as a handoff and never reaches the dispatch layer — for every registry,
including ones that register a tool under that exact name, the batch step
appends only the acknowledgment message and returns the Handoff Request —
and the target name is computed by `str.replace`, which removes every
occurrence of `transfer_to_`, so a target whose own name contains
`transfer_to_` is mangled. -/
theorem handoff_names_intercepted_and_mangled :
    (∀ (env : EngineEnv) (agent : AgentDef) (c : ToolCall)
      (rest : List ToolCall) (st : EngineState), isHandoffName c.name = true →
      processCalls env agent (c :: rest) st =
        (st.push env.now (ackMessage agent c),
          some { target_agent_name := transferTargetName c.name
                 reason := handoffReason c.args
                 preserve_memory := true })) ∧
    transferTargetName "transfer_to_agent_transfer_to_b" = "agent_b" ∧
    transferTargetName "transfer_to_agent_transfer_to_b" ≠ "agent_transfer_to_b" := by
  refine ⟨?_, by decide, by decide⟩
  intro env agent c rest st h
  simp [processCalls, h]

/-- Witness for C10: the handoff-shaped name `transfer_to_billing` is
intercepted even though `demoRegistry` registers a tool under exactly that
name. -/
theorem handoff_names_intercepted_and_mangled_witness :
    processCalls demoToolEnv demoAgent [⟨"c1", "transfer_to_billing", []⟩] initialState =
      (initialState.push demoToolEnv.now
        (ackMessage demoAgent ⟨"c1", "transfer_to_billing", []⟩),
        some { target_agent_name := "billing"
               reason := .jstr "No reason provided"
               preserve_memory := true }) :=
  handoff_names_intercepted_and_mangled.1 demoToolEnv demoAgent
    ⟨"c1", "transfer_to_billing", []⟩ [] initialState (by decide)

/-- C5: save-then-load does not reproduce the saved message list on the
same manager — `load_memory`'s dead `self.short_term_memory = []`
assignment leaves `_short_term_memory` uncleared, so the decoded snapshot
(whose entries do round-trip field-for-field, ISO-8601 timestamp included)
is appended after the existing copy, doubling the list. -/
theorem save_load_round_trip_duplicates :
    loadMemory [persistedMessage] (saveMemory [persistedMessage]) fallbackNow =
      [persistedMessage, persistedMessage] ∧
    loadMemory [persistedMessage] (saveMemory [persistedMessage]) fallbackNow ≠
      [persistedMessage] ∧
    (saveMemory [persistedMessage]).map (messageOfDict fallbackNow) =
      [persistedMessage] := by
  refine ⟨rfl, ?_, rfl⟩
  decide

/-- C6: `load_memory` is not a full replace: with a non-empty prior
memory, the state after loading is the prior messages followed by the
file's messages, not the file's messages alone. -/
theorem load_memory_not_full_replace :
    loadMemory [priorMessage] [Message.toDict fileMessage] fallbackNow =
      [priorMessage, fileMessage] ∧
    loadMemory [priorMessage] [Message.toDict fileMessage] fallbackNow ≠
      [fileMessage] := by
  refine ⟨rfl, ?_⟩
  decide

/-- C9: the executor's request processing: a `ping` command yields
`{"status": "success", "message": "pong"}`; executing `core_sum` with
`{"a": 3, "b": 5}` yields `{"status": "success", "message": 8}`; and any
command other than `ping` / `list_tools` / `execute` yields the invalid-
command error response. -/
theorem executor_protocol_responses :
    (∀ req : ExecRequest, req.command = some "ping" →
      processMessage req = .ok { status := "success", message := .jstr "pong" }) ∧
    processMessage
        { command := some "execute", tool_name := some "core_sum",
          tool_args := [("a", .jint 3), ("b", .jint 5)] } =
      .ok { status := "success", message := .jint 8 } ∧
    (∀ req : ExecRequest,
      req.command.getD "unknown" ≠ "ping" →
      req.command.getD "unknown" ≠ "list_tools" →
      req.command.getD "unknown" ≠ "execute" →
      processMessage req =
        .ok { status := "error",
              message := .jstr "The command is invalid; please try again" }) := by
  refine ⟨?_, rfl, ?_⟩
  · intro req h
    simp [processMessage, h]
  · intro req h1 h2 h3
    simp [processMessage, h1, h2, h3]

/-- Witness for C9 at concrete requests. -/
theorem executor_protocol_responses_witness :
    processMessage { command := some "ping" } =
      .ok { status := "success", message := .jstr "pong" } ∧
    processMessage { command := some "frobnicate" } =
      .ok { status := "error",
            message := .jstr "The command is invalid; please try again" } :=
  ⟨executor_protocol_responses.1 { command := some "ping" } rfl,
    executor_protocol_responses.2.2 { command := some "frobnicate" }
      (by decide) (by decide) (by decide)⟩

end Exodus
